import Mathlib

/-!
Shallow embedding of `src/service-worker.js` (v2.1.0 variant): a
request-interception caching engine for a PWA.  Cache stores are modelled
as association lists (store name to snapshot map); the live network is a
function from URL to a fetch outcome; the four event handlers (install,
activate, fetch, message) become pure state-transforming functions that
additionally record a trace of the store operations they perform.
-/

namespace SW

/-- A response snapshot: captured status, status text, headers, body and
the response type tag (the JS `response.type`, e.g. "basic" or "error"). -/
structure Response where
  status : Nat
  statusText : String
  headers : List (String × String)
  body : String
  respType : String
deriving Repr, DecidableEq

/-- A request, reduced to the fields the worker inspects: the full URL
(the cache key), the URL scheme (`url.protocol`) and the hostname. -/
structure Request where
  url : String
  protocol : String
  hostname : String
deriving Repr, DecidableEq

/-- One named cache store: association list from request identity (URL)
to the stored snapshot. -/
abbrev Store := List (String × Response)

/-- The global cache state: association list from store name (generation
id) to its store, in creation order, as enumerated by `caches.keys()`. -/
abbrev Stores := List (String × Store)

/-- Outcome of a live fetch: a resolved response, or a network error
(the promise rejected). -/
inductive FetchOutcome where
  | ok (r : Response)
  | err
deriving Repr, DecidableEq

/-- The live network, keyed by URL. -/
abbrev Net := String → FetchOutcome

/-- `CACHE_VERSION` from the source. -/
def CACHE_VERSION : String := "real-dor-v2.1.0"

/-- `CACHE_NAME` from the source (equal to the version string). -/
def CACHE_NAME : String := CACHE_VERSION

/-- `urlsToCache` from the source: the static manifest pre-populated at
install time. -/
def urlsToCache : List String :=
  [ "/", "/index.html", "/manifest.json",
    "https://cdn.tailwindcss.com",
    "https://fonts.googleapis.com/css2?family=Nunito:wght@400;600;700;800&display=swap",
    "https://unpkg.com/react@18/umd/react.production.min.js",
    "https://unpkg.com/react-dom@18/umd/react-dom.production.min.js",
    "https://unpkg.com/@babel/standalone/babel.min.js" ]

/-- JS `String.prototype.includes`: substring containment. -/
def listInfixOf (pat s : List Char) : Bool :=
  match s with
  | [] => pat.isEmpty
  | _ :: t => pat.isPrefixOf s || listInfixOf pat t

/-- `s.includes(pat)` on strings. -/
def strIncludes (s pat : String) : Bool :=
  listInfixOf pat.toList s.toList

/-- JS `String.prototype.startsWith` on strings. -/
def strStartsWith (s pre : String) : Bool :=
  pre.toList.isPrefixOf s.toList

/-- `cache.match`-style lookup inside one store. -/
def storeGet (st : Store) (idk : String) : Option Response :=
  match st with
  | [] => none
  | e :: rest => if e.1 == idk then some e.2 else storeGet rest idk

/-- `cache.put` inside one store: overwrite the entry for the identity,
appending it when absent. -/
def storePutEntry (st : Store) (idk : String) (r : Response) : Store :=
  match st with
  | [] => [(idk, r)]
  | e :: rest => if e.1 == idk then (idk, r) :: rest else e :: storePutEntry rest idk r

/-- `caches.open(n)`: idempotent creation of a named store. -/
def cachesOpen (s : Stores) (n : String) : Stores :=
  match s with
  | [] => [(n, [])]
  | c :: rest => if c.1 == n then c :: rest else c :: cachesOpen rest n

/-- `caches.open(n).then(cache => cache.put(idk, r))`: create the store
if absent and overwrite its entry for `idk`. -/
def cachesPut (s : Stores) (n idk : String) (r : Response) : Stores :=
  match s with
  | [] => [(n, [(idk, r)])]
  | c :: rest =>
    if c.1 == n then (c.1, storePutEntry c.2 idk r) :: rest
    else c :: cachesPut rest n idk r

/-- `caches.match(request)`: search every store in creation order for the
identity, returning the first snapshot found. -/
def cachesMatch (s : Stores) (idk : String) : Option Response :=
  match s with
  | [] => none
  | c :: rest =>
    match storeGet c.2 idk with
    | some r => some r
    | none => cachesMatch rest idk

/-- `caches.keys()`: enumerate the existing store names. -/
def cachesKeys (s : Stores) : List String := s.map (fun c => c.1)

/-- `caches.delete(n)`: remove the store named `n`. -/
def cachesDelete (s : Stores) (n : String) : Stores :=
  s.filter (fun c => c.1 != n)

/-- Lookup of one identity inside the store named `n` (if it exists). -/
def lookupStore (s : Stores) (n idk : String) : Option Response :=
  match s with
  | [] => none
  | c :: rest => if c.1 == n then storeGet c.2 idk else lookupStore rest n idk

/-- The hostname test of the Firebase bypass branch:
`url.hostname.includes('firebase') || ...('firestore') || ...('firebasestorage')`. -/
def isFirebaseHost (h : String) : Bool :=
  strIncludes h "firebase" || strIncludes h "firestore" || strIncludes h "firebasestorage"

/-- The `isLibrary` classifier of the fetch handler. -/
def isLibraryHost (h : String) : Bool :=
  strIncludes h "cdn" || strIncludes h "unpkg" || strIncludes h "cloudflare" ||
  strIncludes h "jsdelivr" || strIncludes h "fonts.googleapis" ||
  strIncludes h "fonts.gstatic"

/-- The synthetic offline response: `new Response(msg, {status: 503,
statusText: 'Service Unavailable', headers: {'Content-Type': 'text/plain'}})`. -/
def syntheticOffline (msg : String) : Response :=
  { status := 503, statusText := "Service Unavailable",
    headers := [("Content-Type", "text/plain")], body := msg,
    respType := "default" }

/-- The library-class offline message. -/
def libraryOfflineMsg : String := "Offline - Libreria non disponibile"

/-- The app-class offline message. -/
def appOfflineMsg : String := "Offline - Contenuto non disponibile"

/-- Trace events of store and network operations performed by the fetch
handler. -/
inductive Ev where
  | matchStore (idk : String)
  | liveFetch (url : String)
  | putStore (storeName idk : String)
deriving Repr, DecidableEq

/-- How the fetch handler resolves: not intercepted (early `return`),
responded with a response, or the `respondWith` promise rejected. -/
inductive HandlerResult where
  | notIntercepted
  | responded (r : Response)
  | failed
deriving Repr, DecidableEq

/-- Result of one run of the fetch handler: the resolution, the cache
state afterwards, and the trace of operations performed. -/
structure FetchStep where
  result : HandlerResult
  stores : Stores
  events : List Ev
deriving Repr, DecidableEq

/-- The fetch handler of `src/service-worker.js` (v2.1.0): protocol
filter, Firebase bypass, CacheFirst for library hosts, NetworkFirst
otherwise.  The asynchronous store writes are sequenced after the
response is produced, as in the source. -/
def handleFetch (stores : Stores) (net : Net) (req : Request) : FetchStep :=
  if !(strStartsWith req.protocol "http") then
    ⟨.notIntercepted, stores, []⟩
  else if isFirebaseHost req.hostname then
    match net req.url with
    | .ok r => ⟨.responded r, stores, [.liveFetch req.url]⟩
    | .err => ⟨.failed, stores, [.liveFetch req.url]⟩
  else if isLibraryHost req.hostname then
    match cachesMatch stores req.url with
    | some cached => ⟨.responded cached, stores, [.matchStore req.url]⟩
    | none =>
      match net req.url with
      | .ok r =>
        if r.status != 200 || r.respType == "error" then
          ⟨.responded r, stores, [.matchStore req.url, .liveFetch req.url]⟩
        else
          ⟨.responded r, cachesPut stores CACHE_NAME req.url r,
            [.matchStore req.url, .liveFetch req.url, .putStore CACHE_NAME req.url]⟩
      | .err =>
        match cachesMatch stores req.url with
        | some cached =>
          ⟨.responded cached, stores,
            [.matchStore req.url, .liveFetch req.url, .matchStore req.url]⟩
        | none =>
          ⟨.responded (syntheticOffline libraryOfflineMsg), stores,
            [.matchStore req.url, .liveFetch req.url, .matchStore req.url]⟩
  else
    match net req.url with
    | .ok r =>
      ⟨.responded r, cachesPut stores CACHE_NAME req.url r,
        [.liveFetch req.url, .putStore CACHE_NAME req.url]⟩
    | .err =>
      match cachesMatch stores req.url with
      | some cached =>
        ⟨.responded cached, stores, [.liveFetch req.url, .matchStore req.url]⟩
      | none =>
        ⟨.responded (syntheticOffline appOfflineMsg), stores,
          [.liveFetch req.url, .matchStore req.url]⟩

/-- Result of the install handler: the cache state, whether the promise
passed to `event.waitUntil` rejected, and whether `self.skipWaiting()`
was invoked. -/
structure InstallStep where
  stores : Stores
  waitUntilRejected : Bool
  skipWaitingCalled : Bool
deriving Repr, DecidableEq

/-- The platform batch write `cache.addAll(urls)` used by the install
handler: fetch every URL; if any fetch fails the whole operation rejects
and nothing is written (all-or-nothing); otherwise every response is
written into the store named `n`. -/
def addAll (s : Stores) (n : String) (net : Net) (urls : List String) :
    Option Stores :=
  if urls.all (fun u => match net u with | .ok _ => true | .err => false) then
    some (urls.foldl (fun acc u =>
      match net u with
      | .ok r => cachesPut acc n u r
      | .err => acc) s)
  else
    none

/-- The install handler: `caches.open(CACHE_NAME)`, then
`cache.addAll(urlsToCache)`, then `self.skipWaiting()`, with a trailing
`.catch` that only logs — so the `waitUntil` promise resolves even when
`addAll` rejects, and `skipWaiting` is skipped on that path. -/
def installStep (stores : Stores) (net : Net) : InstallStep :=
  let opened := cachesOpen stores CACHE_NAME
  match addAll opened CACHE_NAME net urlsToCache with
  | some s2 => ⟨s2, false, true⟩
  | none => ⟨opened, false, false⟩

/-- The activate handler: enumerate `caches.keys()` and delete every
store whose name differs from `CACHE_NAME`. -/
def activateStep (stores : Stores) : Stores :=
  (cachesKeys stores).foldl
    (fun acc n => if n != CACHE_NAME then cachesDelete acc n else acc) stores

/-- The control-channel message payloads the handler distinguishes. -/
inductive MsgData where
  | skipWaitingMsg
  | clearCacheMsg
  | getVersionMsg
  | otherMsg
deriving Repr, DecidableEq

/-- A message broadcast to a consumer (client). -/
inductive OutMsg where
  | cacheCleared (message : String)
deriving Repr, DecidableEq

/-- Result of the message handler: cache state, broadcasts sent to
clients, the `GET_VERSION` port reply if any, and whether `skipWaiting`
was invoked. -/
structure MsgStep where
  stores : Stores
  broadcasts : List (Nat × OutMsg)
  portReply : Option String
  skipWaitingCalled : Bool
deriving Repr, DecidableEq

/-- The message handler: `SKIP_WAITING` forces activation; `CLEAR_CACHE`
deletes every store in `caches.keys()` and then posts a `CACHE_CLEARED`
message to every client from `clients.matchAll()`; `GET_VERSION` replies
with `CACHE_VERSION` on the caller's port. -/
def handleMessage (stores : Stores) (clients : List Nat) (d : MsgData) : MsgStep :=
  match d with
  | .skipWaitingMsg => ⟨stores, [], none, true⟩
  | .clearCacheMsg =>
    let s2 := (cachesKeys stores).foldl (fun acc n => cachesDelete acc n) stores
    ⟨s2, clients.map (fun c => (c, .cacheCleared "Cache pulita con successo!")),
      none, false⟩
  | .getVersionMsg => ⟨stores, [], some CACHE_VERSION, false⟩
  | .otherMsg => ⟨stores, [], none, false⟩

/-! Concrete inputs used by witness theorems. -/

/-- A status-200 live response. -/
def respW200 : Response := ⟨200, "OK", [], "fresh", "basic"⟩

/-- A status-404 live response (non-2xx). -/
def respW404 : Response := ⟨404, "Not Found", [], "missing", "basic"⟩

/-- A previously stored snapshot. -/
def respWCached : Response := ⟨200, "OK", [], "cached", "basic"⟩

/-- A request to a Firebase host. -/
def reqFirebaseW : Request :=
  ⟨"https://proj.firebaseio.com/data", "https:", "proj.firebaseio.com"⟩

/-- A request to a library (CDN) host. -/
def reqLibW : Request :=
  ⟨"https://unpkg.com/react@18/umd/react.production.min.js", "https:", "unpkg.com"⟩

/-- A request to the app origin (NetworkFirst class). -/
def reqAppW : Request :=
  ⟨"https://app.example.com/index.html", "https:", "app.example.com"⟩

/-- A network where every fetch resolves with status 200. -/
def netOkW : Net := fun _ => .ok respW200

/-- A network where every fetch resolves with status 404. -/
def netOk404W : Net := fun _ => .ok respW404

/-- A network where every fetch fails. -/
def netErrW : Net := fun _ => .err

/-- A cache state holding a snapshot for the library request. -/
def storesLibW : Stores := [(CACHE_NAME, [(reqLibW.url, respWCached)])]

/-- A cache state holding a snapshot for the app request. -/
def storesAppW : Stores := [(CACHE_NAME, [(reqAppW.url, respWCached)])]

/-- A cache state with a stale generation alongside the current one. -/
def storesActW : Stores := [("real-dor-v2", []), (CACHE_NAME, [("x", respWCached)])]

/-! Helper lemmas about the store operations. -/

/-- Writing an entry makes it the one returned for its identity. -/
theorem storeGet_storePutEntry_self (st : Store) (k : String) (r : Response) :
    storeGet (storePutEntry st k r) k = some r := by
  induction st with
  | nil => simp [storePutEntry, storeGet]
  | cons e rest ih =>
    by_cases h : e.1 == k
    · simp [storePutEntry, h, storeGet]
    · simp [storePutEntry, h, storeGet, ih]

/-- After `cachesPut s n k r`, looking up `k` in the store named `n`
returns `r`. -/
theorem lookupStore_cachesPut_self (s : Stores) (n k : String) (r : Response) :
    lookupStore (cachesPut s n k r) n k = some r := by
  induction s with
  | nil => simp [cachesPut, lookupStore, storeGet]
  | cons c rest ih =>
    by_cases h : c.1 == n
    · simp [cachesPut, h, lookupStore, storeGet_storePutEntry_self]
    · simp [cachesPut, h, lookupStore, ih]

/-- If an identity is absent from every store, then after `cachesPut`
the global `caches.match` lookup returns the written snapshot. -/
theorem cachesMatch_cachesPut_of_none (s : Stores) (n k : String) (r : Response)
    (h : cachesMatch s k = none) :
    cachesMatch (cachesPut s n k r) k = some r := by
  induction s with
  | nil => simp [cachesPut, cachesMatch, storeGet_storePutEntry_self, storeGet]
  | cons c rest ih =>
    cases hg : storeGet c.2 k with
    | some x => simp [cachesMatch, hg] at h
    | none =>
      have hrest : cachesMatch rest k = none := by simpa [cachesMatch, hg] using h
      by_cases hn : c.1 == n
      · simp [cachesPut, hn, cachesMatch, storeGet_storePutEntry_self]
      · simp [cachesPut, hn, cachesMatch, hg, ih hrest]

/-- `cachesPut` introduces no store name other than the target. -/
theorem cachesKeys_cachesPut_mem (s : Stores) (n k : String) (r : Response) :
    ∀ m ∈ cachesKeys (cachesPut s n k r), m ∈ cachesKeys s ∨ m = n := by
  induction s with
  | nil => simp [cachesPut, cachesKeys]
  | cons c rest ih =>
    intro m hm
    by_cases h : c.1 == n
    · simp [cachesPut, h, cachesKeys] at hm ⊢
      tauto
    · simp [cachesPut, h, cachesKeys] at hm ⊢
      rcases hm with hm | hm
      · tauto
      · rcases ih m (by simpa [cachesKeys] using hm) with h2 | h2
        · simp [cachesKeys] at h2
          tauto
        · tauto

/-- Deleting every name that occurs in a store list empties it. -/
theorem foldl_cachesDelete_all (names : List String) :
    ∀ s : Stores, (∀ c ∈ s, c.1 ∈ names) →
      names.foldl (fun acc n => cachesDelete acc n) s = [] := by
  induction names with
  | nil =>
    intro s h
    cases s with
    | nil => rfl
    | cons c rest => exact absurd (h c (by simp)) (by simp)
  | cons n ns ih =>
    intro s h
    simp only [List.foldl_cons]
    apply ih
    intro c hc
    have hcs : c ∈ s ∧ (c.1 != n) = true := by
      simpa [cachesDelete, List.mem_filter] using hc
    have hne : c.1 ≠ n := by simpa using hcs.2
    rcases List.mem_cons.mp (h c hcs.1) with h1 | h1
    · exact absurd h1 hne
    · exact h1

/-- Filtering away one name does not change a filter for a different
name. -/
theorem filter_key_filter (s : Stores) (a b : String) (hab : b ≠ a) :
    (s.filter (fun c => c.1 != a)).filter (fun c => c.1 == b)
      = s.filter (fun c => c.1 == b) := by
  induction s with
  | nil => rfl
  | cons c rest ih =>
    by_cases h1 : c.1 == b
    · have hc : c.1 = b := by simpa using h1
      have h2 : (c.1 != a) = true := by simp [hc, hab]
      simp [List.filter_cons, h1, h2, ih]
    · by_cases h2 : c.1 != a
      · simp [List.filter_cons, h1, h2, ih]
      · simp [List.filter_cons, h1, h2, ih]

/-- The activation fold (delete every enumerated name other than
`CACHE_NAME`) acts as a filter, provided the enumerated names cover the
store list. -/
theorem foldl_reap_eq_filter (names : List String) :
    ∀ s : Stores, (∀ c ∈ s, c.1 = CACHE_NAME ∨ c.1 ∈ names) →
      names.foldl (fun acc n => if n != CACHE_NAME then cachesDelete acc n else acc) s
        = s.filter (fun c => c.1 == CACHE_NAME) := by
  induction names with
  | nil =>
    intro s h
    have hall : ∀ c ∈ s, (c.1 == CACHE_NAME) = true := by
      intro c hc
      rcases h c hc with h1 | h1
      · simpa using h1
      · simp at h1
    simp only [List.foldl_nil]
    exact (List.filter_eq_self.mpr hall).symm
  | cons n ns ih =>
    intro s h
    simp only [List.foldl_cons]
    by_cases hn : n = CACHE_NAME
    · have hcond : (n != CACHE_NAME) = false := by simp [hn]
      rw [hcond]
      simp only [Bool.false_eq_true, if_false]
      apply ih
      intro c hc
      rcases h c hc with h1 | h1
      · exact Or.inl h1
      · rcases List.mem_cons.mp h1 with h2 | h2
        · exact Or.inl (h2.trans hn)
        · exact Or.inr h2
    · have hcond : (n != CACHE_NAME) = true := by simp [hn]
      rw [hcond]
      simp only [if_true]
      rw [ih (cachesDelete s n) ?_]
      · exact filter_key_filter s n CACHE_NAME (fun he => hn he.symm)
      · intro c hc
        have hcs : c ∈ s ∧ (c.1 != n) = true := by
          simpa [cachesDelete, List.mem_filter] using hc
        have hne : c.1 ≠ n := by simpa using hcs.2
        rcases h c hcs.1 with h1 | h1
        · exact Or.inl h1
        · rcases List.mem_cons.mp h1 with h2 | h2
          · exact absurd h2 hne
          · exact Or.inr h2

/-- The activate handler equals a filter keeping only the store named
`CACHE_NAME`. -/
theorem activateStep_eq_filter (stores : Stores) :
    activateStep stores = stores.filter (fun c => c.1 == CACHE_NAME) := by
  apply foldl_reap_eq_filter
  intro c hc
  exact Or.inr (List.mem_map_of_mem (fun c => c.1) hc)

/-! Claim theorems. -/

/-- C1 (counterexample): with a network on which every manifest fetch
fails (in particular the manifest entry "/"), the install handler's
pending work still resolves — `waitUntilRejected` is `false` — because
the trailing catch only logs the error.  This refutes the claim that the
install handler's pending work rejects when a manifest fetch fails. -/
theorem c1_install_counterexample :
    ("/" ∈ urlsToCache) ∧ (netErrW "/" = FetchOutcome.err) ∧
      (installStep [] netErrW).waitUntilRejected = false := by
  refine ⟨by decide, rfl, by decide⟩

/-- C1 (amended): if any single manifest fetch fails, no manifest entry
is written to the store — the state is exactly the opened (possibly
newly created, empty) store — and immediate activation (`skipWaiting`)
is not requested; but the install handler's pending work resolves
(`waitUntilRejected = false`) rather than rejecting, because the error
is caught and logged. -/
theorem c1_install_all_or_nothing (stores : Stores) (net : Net)
    (h : ∃ u ∈ urlsToCache, net u = FetchOutcome.err) :
    installStep stores net =
      ⟨cachesOpen stores CACHE_NAME, false, false⟩ := by
  obtain ⟨u, hu, he⟩ := h
  have hall : (urlsToCache.all fun u =>
      match net u with | .ok _ => true | .err => false) = false := by
    cases hres : urlsToCache.all fun u =>
        match net u with | .ok _ => true | .err => false
    · rfl
    · have := List.all_eq_true.mp hres u hu
      rw [he] at this
      simp at this
  simp [installStep, addAll, hall]

/-- C1 (witness for the amended theorem). -/
theorem c1_install_all_or_nothing_witness :
    (∃ u ∈ urlsToCache, netErrW u = FetchOutcome.err) ∧
      installStep [] netErrW = ⟨cachesOpen [] CACHE_NAME, false, false⟩ :=
  ⟨⟨"/", by decide, rfl⟩,
    c1_install_all_or_nothing [] netErrW ⟨"/", by decide, rfl⟩⟩

/-- C2: for an intercepted request (http scheme) whose hostname matches
the always-bypass (Firebase) pattern list, the handler resolves with the
live fetch outcome only — responding with the live response on success
and failing on network error — leaves every store untouched, and its
trace contains exactly the live fetch: no store read, no store write. -/
theorem c2_bypass_never_touches_store (stores : Stores) (net : Net) (req : Request)
    (hp : strStartsWith req.protocol "http" = true)
    (hf : isFirebaseHost req.hostname = true) :
    handleFetch stores net req =
      ⟨(match net req.url with
        | .ok r => .responded r
        | .err => .failed), stores, [.liveFetch req.url]⟩ := by
  cases hnet : net req.url with
  | ok r => simp [handleFetch, hp, hf, hnet]
  | err => simp [handleFetch, hp, hf, hnet]

/-- C2 (witness). -/
theorem c2_bypass_never_touches_store_witness :
    (strStartsWith reqFirebaseW.protocol "http" = true) ∧
      (isFirebaseHost reqFirebaseW.hostname = true) ∧
      handleFetch storesLibW netOkW reqFirebaseW =
        ⟨.responded respW200, storesLibW, [.liveFetch reqFirebaseW.url]⟩ :=
  ⟨by decide, by decide,
    c2_bypass_never_touches_store storesLibW netOkW reqFirebaseW (by decide) (by decide)⟩

/-- C3: for a NetworkFirst-class request (http scheme, neither bypass
nor library host) whose live fetch resolves with any response `r` — no
status filtering — the handler responds with `r` and the store entry for
the request identity in the current generation's store is overwritten
with a snapshot of `r`. -/
theorem c3_network_first_success (stores : Stores) (net : Net) (req : Request)
    (r : Response)
    (hp : strStartsWith req.protocol "http" = true)
    (hf : isFirebaseHost req.hostname = false)
    (hl : isLibraryHost req.hostname = false)
    (hnet : net req.url = FetchOutcome.ok r) :
    (handleFetch stores net req).result = .responded r ∧
      lookupStore (handleFetch stores net req).stores CACHE_NAME req.url = some r := by
  simp [handleFetch, hp, hf, hl, hnet, lookupStore_cachesPut_self]

/-- C3 (witness, with a non-2xx status 404 live response). -/
theorem c3_network_first_success_witness :
    (strStartsWith reqAppW.protocol "http" = true) ∧
      (isFirebaseHost reqAppW.hostname = false) ∧
      (isLibraryHost reqAppW.hostname = false) ∧
      (netOk404W reqAppW.url = FetchOutcome.ok respW404) ∧
      (handleFetch [] netOk404W reqAppW).result = .responded respW404 ∧
      lookupStore (handleFetch [] netOk404W reqAppW).stores CACHE_NAME reqAppW.url
        = some respW404 :=
  ⟨by decide, by decide, by decide, rfl,
    c3_network_first_success [] netOk404W reqAppW respW404
      (by decide) (by decide) (by decide) rfl⟩

/-- C4: for a CacheFirst-class (library) request whose identity is
present in some store, the handler responds with the stored snapshot,
leaves the stores untouched, and its trace is exactly one store match —
no live fetch is attempted. -/
theorem c4_cache_first_hit (stores : Stores) (net : Net) (req : Request)
    (c : Response)
    (hp : strStartsWith req.protocol "http" = true)
    (hf : isFirebaseHost req.hostname = false)
    (hl : isLibraryHost req.hostname = true)
    (hc : cachesMatch stores req.url = some c) :
    handleFetch stores net req = ⟨.responded c, stores, [.matchStore req.url]⟩ := by
  simp [handleFetch, hp, hf, hl, hc]

/-- C4 (witness). -/
theorem c4_cache_first_hit_witness :
    (strStartsWith reqLibW.protocol "http" = true) ∧
      (isFirebaseHost reqLibW.hostname = false) ∧
      (isLibraryHost reqLibW.hostname = true) ∧
      (cachesMatch storesLibW reqLibW.url = some respWCached) ∧
      handleFetch storesLibW netErrW reqLibW =
        ⟨.responded respWCached, storesLibW, [.matchStore reqLibW.url]⟩ :=
  ⟨by decide, by decide, by decide, by decide,
    c4_cache_first_hit storesLibW netErrW reqLibW respWCached
      (by decide) (by decide) (by decide) (by decide)⟩

/-- C5: for a CacheFirst-class (library) request whose identity is
absent from every store and whose live fetch resolves with a status-200,
non-error response `r`, the handler responds with `r` and a subsequent
`caches.match` lookup of the identity returns the snapshot of `r`. -/
theorem c5_cache_first_miss_200 (stores : Stores) (net : Net) (req : Request)
    (r : Response)
    (hp : strStartsWith req.protocol "http" = true)
    (hf : isFirebaseHost req.hostname = false)
    (hl : isLibraryHost req.hostname = true)
    (hc : cachesMatch stores req.url = none)
    (hnet : net req.url = FetchOutcome.ok r)
    (hs : r.status = 200)
    (ht : r.respType ≠ "error") :
    (handleFetch stores net req).result = .responded r ∧
      cachesMatch (handleFetch stores net req).stores req.url = some r := by
  have hcond : (r.status != 200 || r.respType == "error") = false := by
    simp [hs, ht]
  simp [handleFetch, hp, hf, hl, hc, hnet, hcond,
    cachesMatch_cachesPut_of_none stores CACHE_NAME req.url r hc]

/-- C5 (witness). -/
theorem c5_cache_first_miss_200_witness :
    (strStartsWith reqLibW.protocol "http" = true) ∧
      (isFirebaseHost reqLibW.hostname = false) ∧
      (isLibraryHost reqLibW.hostname = true) ∧
      (cachesMatch [] reqLibW.url = none) ∧
      (netOkW reqLibW.url = FetchOutcome.ok respW200) ∧
      (respW200.status = 200) ∧
      (respW200.respType ≠ "error") ∧
      (handleFetch [] netOkW reqLibW).result = .responded respW200 ∧
      cachesMatch (handleFetch [] netOkW reqLibW).stores reqLibW.url = some respW200 := by
  refine ⟨by decide, by decide, by decide, by decide, rfl, by decide, by decide, ?_⟩
  exact c5_cache_first_miss_200 [] netOkW reqLibW respW200
    (by decide) (by decide) (by decide) (by decide) rfl (by decide) (by decide)

/-- C6: for a NetworkFirst-class request whose live fetch fails, the
handler responds with the prior stored snapshot when the identity is
present in some store, and with the synthetic 503 response carrying the
app-offline message when it is absent. -/
theorem c6_network_first_failure (stores : Stores) (net : Net) (req : Request)
    (hp : strStartsWith req.protocol "http" = true)
    (hf : isFirebaseHost req.hostname = false)
    (hl : isLibraryHost req.hostname = false)
    (hnet : net req.url = FetchOutcome.err) :
    (handleFetch stores net req).result =
      .responded (match cachesMatch stores req.url with
        | some c => c
        | none => syntheticOffline appOfflineMsg) := by
  cases hc : cachesMatch stores req.url with
  | some c => simp [handleFetch, hp, hf, hl, hnet, hc]
  | none => simp [handleFetch, hp, hf, hl, hnet, hc]

/-- C6 (witness, cache-hit side). -/
theorem c6_network_first_failure_witness :
    (strStartsWith reqAppW.protocol "http" = true) ∧
      (isFirebaseHost reqAppW.hostname = false) ∧
      (isLibraryHost reqAppW.hostname = false) ∧
      (netErrW reqAppW.url = FetchOutcome.err) ∧
      (handleFetch storesAppW netErrW reqAppW).result = .responded respWCached :=
  ⟨by decide, by decide, by decide, rfl,
    c6_network_first_failure storesAppW netErrW reqAppW
      (by decide) (by decide) (by decide) rfl⟩

/-- C7: for a CacheFirst-class (library) request whose identity is
absent, whose live fetch fails, and (the recheck finding it still
absent), the handler responds with the synthetic status-503 plain-text
response carrying the library-offline message, which differs from the
app-class fallback message. -/
theorem c7_cache_first_offline (stores : Stores) (net : Net) (req : Request)
    (hp : strStartsWith req.protocol "http" = true)
    (hf : isFirebaseHost req.hostname = false)
    (hl : isLibraryHost req.hostname = true)
    (hc : cachesMatch stores req.url = none)
    (hnet : net req.url = FetchOutcome.err) :
    (handleFetch stores net req).result = .responded (syntheticOffline libraryOfflineMsg) ∧
      (syntheticOffline libraryOfflineMsg).status = 503 ∧
      (syntheticOffline libraryOfflineMsg).headers = [("Content-Type", "text/plain")] ∧
      libraryOfflineMsg ≠ appOfflineMsg := by
  refine ⟨?_, rfl, rfl, by decide⟩
  simp [handleFetch, hp, hf, hl, hc, hnet]

/-- C7 (witness). -/
theorem c7_cache_first_offline_witness :
    (strStartsWith reqLibW.protocol "http" = true) ∧
      (isFirebaseHost reqLibW.hostname = false) ∧
      (isLibraryHost reqLibW.hostname = true) ∧
      (cachesMatch [] reqLibW.url = none) ∧
      (netErrW reqLibW.url = FetchOutcome.err) ∧
      ((handleFetch [] netErrW reqLibW).result = .responded (syntheticOffline libraryOfflineMsg) ∧
        (syntheticOffline libraryOfflineMsg).status = 503 ∧
        (syntheticOffline libraryOfflineMsg).headers = [("Content-Type", "text/plain")] ∧
        libraryOfflineMsg ≠ appOfflineMsg) :=
  ⟨by decide, by decide, by decide, by decide, rfl,
    c7_cache_first_offline [] netErrW reqLibW
      (by decide) (by decide) (by decide) (by decide) rfl⟩

/-- C8: after activation, the set of existing store ids is exactly the
singleton of the current generation id: every differently named store
has been deleted and the current generation's store remains (given that
it existed beforehand, as installation's `caches.open` guarantees). -/
theorem c8_activate_reaps_stale (stores : Stores)
    (h : CACHE_NAME ∈ cachesKeys stores) :
    (cachesKeys (activateStep stores)).toFinset = {CACHE_NAME} := by
  rw [activateStep_eq_filter]
  ext n
  simp only [List.mem_toFinset, Finset.mem_singleton, cachesKeys, List.mem_map,
    List.mem_filter]
  constructor
  · rintro ⟨c, ⟨_, hkey⟩, rfl⟩
    simpa using hkey
  · rintro rfl
    obtain ⟨c, hc, hkey⟩ := List.mem_map.mp h
    exact ⟨c, ⟨hc, by simp [hkey]⟩, hkey⟩

/-- C8 (witness). -/
theorem c8_activate_reaps_stale_witness :
    (CACHE_NAME ∈ cachesKeys storesActW) ∧
      (cachesKeys (activateStep storesActW)).toFinset = {CACHE_NAME} :=
  ⟨by decide, c8_activate_reaps_stale storesActW (by decide)⟩

/-- C9: after the message handler processes a `CLEAR_CACHE` command, the
store list is empty — no store for any generation contains any entry —
and every known connected client receives the `CACHE_CLEARED`
broadcast. -/
theorem c9_clear_cache (stores : Stores) (clients : List Nat) :
    (handleMessage stores clients .clearCacheMsg).stores = [] ∧
      (handleMessage stores clients .clearCacheMsg).broadcasts =
        clients.map (fun c => (c, .cacheCleared "Cache pulita con successo!")) := by
  constructor
  · simp only [handleMessage]
    apply foldl_cachesDelete_all
    intro c hc
    exact List.mem_map_of_mem (fun c => c.1) hc
  · rfl

/-- C10: on the request path, every store write in the trace targets the
store named `CACHE_NAME` (the current generation), and the handler never
creates a store with any other name: every store name existing
afterwards already existed before or is `CACHE_NAME`. -/
theorem c10_writes_target_current_generation (stores : Stores) (net : Net)
    (req : Request) :
    ((handleFetch stores net req).events.all fun e =>
        match e with
        | .putStore n _ => n == CACHE_NAME
        | _ => true) = true ∧
      ((cachesKeys (handleFetch stores net req).stores).all fun m =>
        (cachesKeys stores).contains m || m == CACHE_NAME) = true := by
  have hself : ∀ s : Stores,
      ((cachesKeys s).all fun m =>
        (cachesKeys s).contains m || m == CACHE_NAME) = true := by
    intro s
    apply List.all_eq_true.mpr
    intro m hm
    simp [List.elem_iff, hm]
  have hput : ∀ (s : Stores) (k : String) (r : Response),
      ((cachesKeys (cachesPut s CACHE_NAME k r)).all fun m =>
        (cachesKeys s).contains m || m == CACHE_NAME) = true := by
    intro s k r
    apply List.all_eq_true.mpr
    intro m hm
    rcases cachesKeys_cachesPut_mem s CACHE_NAME k r m hm with h1 | h1
    · simp [List.elem_iff, h1]
    · simp [h1]
  unfold handleFetch
  split
  · exact ⟨rfl, hself stores⟩
  split
  · split <;> exact ⟨rfl, hself stores⟩
  split
  · split
    · exact ⟨rfl, hself stores⟩
    · split
      · split
        · exact ⟨rfl, hself stores⟩
        · exact ⟨by simp, hput stores req.url _⟩
      · split <;> exact ⟨rfl, hself stores⟩
  · split
    · exact ⟨by simp, hput stores req.url _⟩
    · split <;> exact ⟨rfl, hself stores⟩

end SW
